import Mathlib

/-!
Shallow embedding of the BioVault distributed consensus orchestration
subsystem (`src/agents/agent_messages.py`, `src/agents/base_agent.py`,
`src/agents/distributed_orchestrator.py`) and theorems settling the
specification claims about it.

Modelling conventions:
* Python `dict`s (insertion ordered) are association lists
  `List (String × α)` with first-match lookup, in-place update of an
  existing key, and append of a new key.
* Python `float` thresholds, ratios and coverage amounts are `ℚ`;
  `datetime` values are abstract `Nat` ticks.
* Handlers are pure state transformers on an explicit orchestrator state.
-/

namespace BioVault

/-! ### Insertion-ordered dictionaries (Python `dict`) -/

/-- `d[key]` lookup returning `none` when absent (Python `dict.get`). -/
def lookupD {α : Type} : List (String × α) → String → Option α
  | [], _ => none
  | (k, v) :: rest, key => if k = key then some v else lookupD rest key

/-- `d[key] = v`: update in place when the key exists, append otherwise. -/
def insertD {α : Type} : List (String × α) → String → α → List (String × α)
  | [], key, v => [(key, v)]
  | (k, w) :: rest, key, v =>
      if k = key then (k, v) :: rest else (k, w) :: insertD rest key v

/-- `del d[key]` (removes the first binding of the key, if any). -/
def eraseD {α : Type} : List (String × α) → String → List (String × α)
  | [], _ => []
  | (k, w) :: rest, key => if k = key then rest else (k, w) :: eraseD rest key

/-- Number of bindings a key has in an association list. -/
def keyCount {α : Type} (d : List (String × α)) (key : String) : Nat :=
  (d.filter (fun p => p.1 = key)).length

/-! ### Message deduplicator (`agent_messages.py`, `MessageDeduplicator`) -/

/-- Bounded nonce cache.  The Python implementation stores nonces in a
`set` and, on overflow, evicts `list(set)[:int(max_cache_size * 0.2)]`;
following the source's own "simple FIFO approximation" comment, the
iteration order of the set is modelled as insertion order. -/
structure MessageDeduplicator where
  seen_nonces : List String
  max_cache_size : Nat
  deriving DecidableEq

/-- Models `int(self.max_cache_size * 0.2)`; exact for the cache sizes
used here (e.g. `10000 ↦ 2000`, `10 ↦ 2`). -/
def MessageDeduplicator.evictCount (d : MessageDeduplicator) : Nat :=
  d.max_cache_size * 2 / 10

/-- `MessageDeduplicator.is_duplicate`, returning the flag together with
the updated cache state. -/
def MessageDeduplicator.is_duplicate (d : MessageDeduplicator) (nonce : String) :
    Bool × MessageDeduplicator :=
  if nonce ∈ d.seen_nonces then
    (true, d)
  else
    let seen := d.seen_nonces ++ [nonce]
    let seen := if d.max_cache_size < seen.length then seen.drop d.evictCount else seen
    (false, { d with seen_nonces := seen })

/-! ### Metrics (`DistributedConsensusOrchestrator.consensus_metrics`) -/

structure ConsensusMetrics where
  total_evaluations : Nat
  consensus_achieved : Nat
  consensus_failed : Nat
  agent_timeouts : Nat
  duplicate_messages : Nat
  average_consensus_time : Nat
  partial_consensus_count : Nat
  wallet_verification_failures : Nat
  broadcast_discoveries : Nat
  deriving DecidableEq

def initialMetrics : ConsensusMetrics :=
  { total_evaluations := 0, consensus_achieved := 0, consensus_failed := 0,
    agent_timeouts := 0, duplicate_messages := 0, average_consensus_time := 0,
    partial_consensus_count := 0, wallet_verification_failures := 0,
    broadcast_discoveries := 0 }

/-! ### Wire messages (`agent_messages.py`) -/

/-- `SimpleVerdictMessage`; `verdict` is a plain string (one of
`COVERED`, `NOT_COVERED`, `PARTIAL_COVERAGE`, `REQUIRES_REVIEW`). -/
structure SimpleVerdictMessage where
  agent_id : String
  verdict : String
  coverage_amount : Option ℚ
  primary_reason : String
  confidence_score : ℚ
  requires_human_review : Bool
  processing_time_ms : Nat
  model_name : String
  timestamp : Nat
  deriving DecidableEq

/-- `VerdictResponseMessage` (with the `BaseMessage` fields inlined).
`verdict` is optional because `create_error_response` builds responses
with a null verdict. -/
structure VerdictResponseMessage where
  schema_version : String
  message_id : String
  nonce : String
  timestamp : Nat
  claim_id : String
  request_message_id : String
  verdict : Option SimpleVerdictMessage
  success : Bool
  error_message : Option String
  error_type : Option String
  agent_address : String
  deriving DecidableEq

/-- `AgentRegistrationMessage` (with the `BaseMessage` fields inlined). -/
structure AgentRegistrationMessage where
  schema_version : String
  message_id : String
  nonce : String
  timestamp : Nat
  agent_id : String
  agent_address : String
  agent_type : String
  llm_backend : String
  capabilities : List String
  max_concurrent_evaluations : Nat
  discovery_version : String
  deriving DecidableEq

/-- `ConsensusRequestMessage` (with the `BaseMessage` fields inlined). -/
structure ConsensusRequestMessage where
  schema_version : String
  message_id : String
  nonce : String
  timestamp : Nat
  claim_id : String
  policy_path : String
  invoice_path : String
  decryption_key : String
  requester_address : String
  consensus_threshold : ℚ
  agent_timeout : Nat
  deriving DecidableEq

/-- `SimpleConsensusResult`. -/
structure SimpleConsensusResult where
  claim_id : String
  unanimous_verdict : Option String
  agreement_ratio : ℚ
  agent_verdicts : List SimpleVerdictMessage
  dissenting_agents : List String
  consensus_coverage_amount : Option ℚ
  processing_time_ms : Nat
  evaluation_timestamp : Nat
  deriving DecidableEq

/-! ### Consensus session and orchestrator state
(`distributed_orchestrator.py`, `DistributedConsensusOrchestrator`) -/

/-- One entry of `active_consensuses`. -/
structure ConsensusSession where
  request : ConsensusRequestMessage
  start_time : Nat
  expected_agents : Nat
  timeout : Nat
  deriving DecidableEq

/-- The orchestrator's mutable state: registry, wallet map, per-claim
session maps, metrics and the (module-global) deduplicator.  A future is
`none` while pending and `some verdicts` once `set_result` has run. -/
structure OrchestratorState where
  consensus_threshold : ℚ
  registered_agents : List (String × AgentRegistrationMessage)
  verified_wallets : List (String × String)
  active_consensuses : List (String × ConsensusSession)
  pending_verdicts : List (String × List VerdictResponseMessage)
  consensus_futures : List (String × Option (List VerdictResponseMessage))
  consensus_metrics : ConsensusMetrics
  dedup : MessageDeduplicator
  deriving DecidableEq

/-! ### Registration handler (`handle_agent_registration`) -/

/-- `handle_agent_registration`: dedup gate, wallet verification
(`sender == msg.agent_address`), then registry/wallet-map update.  The
second component lists the recipients of messages the handler sends;
this handler sends none on any path. -/
def handle_agent_registration (st : OrchestratorState) (sender : String)
    (msg : AgentRegistrationMessage) : OrchestratorState × List String :=
  let dup := st.dedup.is_duplicate msg.nonce
  let st := { st with dedup := dup.2 }
  if dup.1 then
    ({ st with consensus_metrics :=
        { st.consensus_metrics with duplicate_messages :=
            st.consensus_metrics.duplicate_messages + 1 } }, [])
  else if sender ≠ msg.agent_address then
    ({ st with consensus_metrics :=
        { st.consensus_metrics with wallet_verification_failures :=
            st.consensus_metrics.wallet_verification_failures + 1 } }, [])
  else
    ({ st with
        registered_agents := insertD st.registered_agents msg.agent_id msg,
        verified_wallets := insertD st.verified_wallets msg.agent_id sender }, [])

/-! ### Verdict-response handler (`handle_verdict_response`) -/

/-- `any(self.verified_wallets.get(agent_id) == sender for agent_id in
self.verified_wallets)`. -/
def senderVerified (wallets : List (String × String)) (sender : String) : Bool :=
  wallets.any (fun p => lookupD wallets p.1 = some sender)

/-- `handle_verdict_response`: dedup gate, sender wallet verification,
append to `pending_verdicts[claim_id]` (creating the list if missing),
then complete the claim's future when enough verdicts are in. -/
def handle_verdict_response (st : OrchestratorState) (sender : String)
    (msg : VerdictResponseMessage) : OrchestratorState :=
  let dup := st.dedup.is_duplicate msg.nonce
  let st := { st with dedup := dup.2 }
  if dup.1 then st
  else if ¬ senderVerified st.verified_wallets sender then
    { st with consensus_metrics :=
        { st.consensus_metrics with wallet_verification_failures :=
            st.consensus_metrics.wallet_verification_failures + 1 } }
  else
    let cur := (lookupD st.pending_verdicts msg.claim_id).getD []
    let st :=
      { st with pending_verdicts := insertD st.pending_verdicts msg.claim_id (cur ++ [msg]) }
    match lookupD st.consensus_futures msg.claim_id with
    | some none =>
        match lookupD st.active_consensuses msg.claim_id with
        | some session =>
            let verdicts := (lookupD st.pending_verdicts msg.claim_id).getD []
            if session.expected_agents ≤ verdicts.length then
              let fut := insertD st.consensus_futures msg.claim_id (some verdicts)
              { st with consensus_futures := fut }
            else st
        | none => st
    | _ => st

/-! ### Consensus-request handling
(`handle_consensus_request` / `_execute_distributed_consensus_async`) -/

/-- The synchronous session-initialisation prefix of
`_execute_distributed_consensus_async` (lines 229-270): bump
`total_evaluations`, create/overwrite the session entry, reset the
claim's pending-verdict list, create a fresh future, dispatch one
evaluation message per registered agent (`sendOk` tells which transport
sends succeed) and record the dispatched count as `expected_agents`. -/
def startConsensusSession (st : OrchestratorState) (request : ConsensusRequestMessage)
    (sendOk : String → Bool) (now : Nat) : OrchestratorState :=
  let claim_id := request.claim_id
  let st := { st with consensus_metrics :=
      { st.consensus_metrics with total_evaluations :=
          st.consensus_metrics.total_evaluations + 1 } }
  let session : ConsensusSession :=
    { request := request, start_time := now,
      expected_agents := st.registered_agents.length,
      timeout := now + request.agent_timeout }
  let st := { st with
      active_consensuses := insertD st.active_consensuses claim_id session,
      pending_verdicts := insertD st.pending_verdicts claim_id [],
      consensus_futures := insertD st.consensus_futures claim_id none }
  let sent_to_agents :=
    (st.registered_agents.filter (fun p => sendOk p.2.agent_address)).map (fun p => p.1)
  let final_session := { session with expected_agents := sent_to_agents.length }
  { st with active_consensuses := insertD st.active_consensuses claim_id final_session }

/-- `handle_consensus_request`: dedup gate, then session initialisation.
The Boolean records whether the handler proceeded to execute the
distributed consensus (there is no other rejection path). -/
def handle_consensus_request (st : OrchestratorState) (msg : ConsensusRequestMessage)
    (sendOk : String → Bool) (now : Nat) : OrchestratorState × Bool :=
  let dup := st.dedup.is_duplicate msg.nonce
  let st := { st with dedup := dup.2 }
  if dup.1 then (st, false)
  else (startConsensusSession st msg sendOk now, true)

/-! ### Consensus analysis (`_analyze_distributed_consensus`) -/

/-- `if response.success and response.verdict` filter. -/
def validVerdicts (rs : List VerdictResponseMessage) : List SimpleVerdictMessage :=
  rs.filterMap (fun r => if r.success then r.verdict else none)

/-- `verdict_counts[k] = verdict_counts.get(k, 0) + 1`. -/
def bumpCount (c : List (String × Nat)) (k : String) : List (String × Nat) :=
  insertD c k ((lookupD c k).getD 0 + 1)

/-- The `verdict_counts` dict built by the counting loop. -/
def countsOf (ks : List String) : List (String × Nat) :=
  ks.foldl bumpCount []

/-- Left fold keeping the first entry with the (strictly) greatest count,
as Python `max` does. -/
def pickMax (b : String × Nat) (l : List (String × Nat)) : String × Nat :=
  l.foldl (fun best x => if best.2 < x.2 then x else best) b

/-- `max(verdict_counts, key=verdict_counts.get)`: Python `max` keeps the
first maximal element in dict (insertion) order. -/
def maxKeyFirst : List (String × Nat) → Option (String × Nat)
  | [] => none
  | kv :: rest => some (pickMax kv rest)

/-- The truthy coverage amounts: Python `if v.coverage_amount` drops both
`None` and `0.0`. -/
def truthyAmounts (vs : List SimpleVerdictMessage) : List ℚ :=
  vs.filterMap (fun v =>
    match v.coverage_amount with
    | some a => if a = 0 then none else some a
    | none => none)

/-- `_analyze_distributed_consensus`, returning the consensus result and
the updated metrics.  `now - start_time` models the millisecond
processing-time computation. -/
def analyzeDistributedConsensus (threshold : ℚ) (claim_id : String)
    (verdict_responses : List VerdictResponseMessage) (start_time now : Nat)
    (metrics : ConsensusMetrics) : SimpleConsensusResult × ConsensusMetrics :=
  let valid_verdicts := validVerdicts verdict_responses
  if valid_verdicts = [] then
    ({ claim_id := claim_id, unanimous_verdict := none, agreement_ratio := 0,
       agent_verdicts := [], dissenting_agents := [],
       consensus_coverage_amount := none,
       processing_time_ms := now - start_time, evaluation_timestamp := now },
     { metrics with consensus_failed := metrics.consensus_failed + 1 })
  else
    let verdict_counts := countsOf (valid_verdicts.map SimpleVerdictMessage.verdict)
    let majority_verdict := ((maxKeyFirst verdict_counts).getD ("", 0)).1
    let majority_count := (lookupD verdict_counts majority_verdict).getD 0
    let ratio : ℚ := (majority_count : ℚ) / (valid_verdicts.length : ℚ)
    let achieved := threshold ≤ ratio
    let unanimous_verdict := if achieved then some majority_verdict else none
    let dissenting_agents :=
      (valid_verdicts.filter (fun v => v.verdict ≠ majority_verdict)).map
        SimpleVerdictMessage.agent_id
    let amounts := truthyAmounts valid_verdicts
    let consensus_coverage_amount :=
      if unanimous_verdict = some "COVERED" ∨ unanimous_verdict = some "PARTIAL_COVERAGE" then
        if amounts = [] then none else some (amounts.sum / (amounts.length : ℚ))
      else none
    ({ claim_id := claim_id, unanimous_verdict := unanimous_verdict,
       agreement_ratio := ratio, agent_verdicts := valid_verdicts,
       dissenting_agents := dissenting_agents,
       consensus_coverage_amount := consensus_coverage_amount,
       processing_time_ms := now - start_time, evaluation_timestamp := now },
     if achieved then
       { metrics with consensus_achieved := metrics.consensus_achieved + 1 }
     else
       { metrics with consensus_failed := metrics.consensus_failed + 1 })

/-! ### Verdict signing (`base_agent.py`, `sign_verdict_asi_native`) -/

/-- Verdict enumeration of `schemas.py`. -/
inductive VerdictType where
  | COVERED
  | NOT_COVERED
  | PARTIAL_COVERAGE
  | REQUIRES_REVIEW
  deriving DecidableEq

/-- The enum's string `value`. -/
def VerdictType.value : VerdictType → String
  | .COVERED => "COVERED"
  | .NOT_COVERED => "NOT_COVERED"
  | .PARTIAL_COVERAGE => "PARTIAL_COVERAGE"
  | .REQUIRES_REVIEW => "REQUIRES_REVIEW"

/-- The fields of `schemas.AgentVerdict` that the signing code reads;
fields never touched by the embedded operations are omitted. -/
structure AgentVerdict where
  agent_id : String
  agent_type : String
  timestamp : Nat
  verdict : VerdictType
  coverage_amount : Option ℚ
  primary_reason : String
  deriving DecidableEq

/-- JSON scalar values occurring in the signing payload. -/
inductive JsonVal where
  | str (s : String)
  | num (q : ℚ)
  | null
  deriving DecidableEq

/-- Abstract rendering of `datetime.isoformat(timespec="milliseconds")`. -/
def isoMillis (t : Nat) : String := toString t

/-- Python truthiness of the optional `message_id` argument (both `None`
and the empty string are falsy). -/
def truthyStr : Option String → Bool
  | none => false
  | some s => s ≠ ""

/-- The `signed_fields` list: the fixed six fields, plus `message_id`
when a (truthy) binding id is provided. -/
def signedFieldsFor (message_id : Option String) : List String :=
  ["agent_id", "agent_type", "timestamp", "verdict", "coverage_amount",
   "primary_reason"] ++ (if truthyStr message_id then ["message_id"] else [])

/-- The signing payload dict, in field-iteration order: datetimes are
normalised to millisecond ISO text, enums to their string value; the
`message_id` entry is present exactly when a truthy binding id was
passed.  (`json.dumps(..., sort_keys=True)` serialises the dict with
sorted keys; as the keys are pairwise distinct, the dict is faithfully
represented by this fixed-order association list.) -/
def signingPayload (verdict : AgentVerdict) (message_id : Option String) :
    List (String × JsonVal) :=
  [("agent_id", JsonVal.str verdict.agent_id),
   ("agent_type", JsonVal.str verdict.agent_type),
   ("timestamp", JsonVal.str (isoMillis verdict.timestamp)),
   ("verdict", JsonVal.str verdict.verdict.value),
   ("coverage_amount",
     match verdict.coverage_amount with
     | some a => JsonVal.num a
     | none => JsonVal.null),
   ("primary_reason", JsonVal.str verdict.primary_reason)]
  ++ (if truthyStr message_id then
        [("message_id", JsonVal.str (message_id.getD ""))]
      else [])

/-- `AgentSignature` of `schemas.py`; `value` is produced by the external
pipeline `json.dumps ∘ sha256 ∘ wallet.sign ∘ hex`, modelled by the
parameter `signRaw` applied to the payload. -/
structure AgentSignature (σ : Type) where
  value : σ
  algorithm : String
  signed_fields : List String
  signer_address : String

/-- `sign_verdict_asi_native` (success path; the exception-fallback
placeholder branch is an external failure mode and is not modelled). -/
def sign_verdict_asi_native {σ : Type} (signRaw : List (String × JsonVal) → σ)
    (wallet_address : String) (verdict : AgentVerdict)
    (message_id : Option String) : AgentSignature σ :=
  { value := signRaw (signingPayload verdict message_id),
    algorithm := "secp256k1",
    signed_fields := signedFieldsFor message_id,
    signer_address := wallet_address }

/-! ### Specification-side definitions (used to state the claims) -/

/-- Keys in first-seen order, starting from an accumulator. -/
def firstSeenFrom (l : List String) (ks : List String) : List String :=
  ks.foldl (fun acc k => if k ∈ acc then acc else acc ++ [k]) l

/-- The distinct elements of `ks` in first-seen order — the key order of
the Python counting dict. -/
def firstSeen (ks : List String) : List String := firstSeenFrom [] ks

/-- `k` has the (weakly) highest count among the elements of `ks`. -/
def isMajorityOf (ks : List String) (k : String) : Bool :=
  ks.all (fun j => ks.count j ≤ ks.count k)

/-- Feed a list of nonces through the deduplicator, keeping the state. -/
def dedupRun (d : MessageDeduplicator) (ns : List String) : MessageDeduplicator :=
  ns.foldl (fun d n => (d.is_duplicate n).2) d

/-! ### Concrete fixtures for witnesses and counterexamples -/

def mkVerdict (aid kind : String) (amt : Option ℚ) : SimpleVerdictMessage :=
  { agent_id := aid, verdict := kind, coverage_amount := amt,
    primary_reason := "r", confidence_score := 1, requires_human_review := false,
    processing_time_ms := 0, model_name := "m", timestamp := 0 }

def mkResponse (n claim aid kind : String) (amt : Option ℚ) (addr : String) :
    VerdictResponseMessage :=
  { schema_version := "1.0.0", message_id := n, nonce := n, timestamp := 0,
    claim_id := claim, request_message_id := "req", verdict := some (mkVerdict aid kind amt),
    success := true, error_message := none, error_type := none, agent_address := addr }

def emptyOrchestratorState : OrchestratorState :=
  { consensus_threshold := 1, registered_agents := [], verified_wallets := [],
    active_consensuses := [], pending_verdicts := [], consensus_futures := [],
    consensus_metrics := initialMetrics,
    dedup := { seen_nonces := [], max_cache_size := 10000 } }

/-- A single accepted `COVERED` verdict whose coverage amount is `0.0`. -/
def rsC4 : List VerdictResponseMessage :=
  [mkResponse "n1" "claim-1" "agent1" "COVERED" (some 0) "addr1"]

/-- Two accepted verdicts of different kinds: a two-way tie. -/
def rsTie : List VerdictResponseMessage :=
  [mkResponse "t1" "claim-t" "agent1" "COVERED" (some 100) "addr1",
   mkResponse "t2" "claim-t" "agent2" "NOT_COVERED" none "addr2"]

/-- A small deduplicator cache (capacity 10, evicting 2 on overflow). -/
def dedupC5 : MessageDeduplicator := { seen_nonces := [], max_cache_size := 10 }

def noncesC5 : List String :=
  ["n00", "n01", "n02", "n03", "n04", "n05", "n06", "n07", "n08", "n09", "n10"]

/-- Orchestrator with one verified wallet: agent `agent1` at `addr1`. -/
def stWallet : OrchestratorState :=
  { emptyOrchestratorState with verified_wallets := [("agent1", "addr1")] }

def msgC2a : VerdictResponseMessage :=
  mkResponse "nonceA" "claim-1" "agent1" "COVERED" (some 100) "addr1"

/-- Same claim, same verdict content and same request correlation id as
`msgC2a` (an exact replay), but retransmitted under a fresh nonce. -/
def msgC2b : VerdictResponseMessage :=
  mkResponse "nonceB" "claim-1" "agent1" "COVERED" (some 100) "addr1"

/-- A verdict response arriving for a claim whose session has closed. -/
def msgC6 : VerdictResponseMessage :=
  mkResponse "nonceL" "claim-9" "agent1" "COVERED" (some 50) "addr1"

/-- A verdict response whose embedded agent id (`agent2`) differs from
the agent registered for the sending wallet (`agent1` at `addr1`). -/
def msgC10 : VerdictResponseMessage :=
  mkResponse "nonceX" "claim-2" "agent2" "COVERED" none "addr1"

def reqC1 : ConsensusRequestMessage :=
  { schema_version := "1.0.0", message_id := "m2", nonce := "nonce2", timestamp := 40,
    claim_id := "claim-1", policy_path := "p", invoice_path := "i",
    decryption_key := "k", requester_address := "req",
    consensus_threshold := 1, agent_timeout := 120 }

def sessC1 : ConsensusSession :=
  { request := { reqC1 with message_id := "m1", nonce := "nonce1" },
    start_time := 0, expected_agents := 2, timeout := 120 }

/-- State with an open session for `claim-1` that has already collected
one verdict. -/
def stC1 : OrchestratorState :=
  { stWallet with
      active_consensuses := [("claim-1", sessC1)],
      pending_verdicts := [("claim-1", [msgC2a])],
      consensus_futures := [("claim-1", none)],
      dedup := { seen_nonces := ["nonce1", "nonceA"], max_cache_size := 10000 } }

def regMsg : AgentRegistrationMessage :=
  { schema_version := "1.0.0", message_id := "r1", nonce := "nr1", timestamp := 0,
    agent_id := "agent1", agent_address := "addr1", agent_type := "nlp",
    llm_backend := "llm", capabilities := ["claim_evaluation"],
    max_concurrent_evaluations := 1, discovery_version := "1.0.0" }

/-- State that has already seen `regMsg`'s nonce. -/
def stDup : OrchestratorState :=
  { emptyOrchestratorState with
      dedup := { seen_nonces := ["nr1"], max_cache_size := 10000 } }

def vC8 : AgentVerdict :=
  { agent_id := "agent1", agent_type := "nlp", timestamp := 0,
    verdict := VerdictType.COVERED, coverage_amount := some 100,
    primary_reason := "ok" }

/-! ## Theorems -/

/-! ### Association-list lemmas -/

@[simp] theorem lookupD_nil {α : Type} (key : String) :
    lookupD ([] : List (String × α)) key = none := rfl

@[simp] theorem lookupD_cons {α : Type} (k : String) (v : α) (rest : List (String × α))
    (key : String) :
    lookupD ((k, v) :: rest) key = if k = key then some v else lookupD rest key := rfl

theorem lookupD_insertD {α : Type} (d : List (String × α)) (key : String) (v : α)
    (k : String) :
    lookupD (insertD d key v) k = if key = k then some v else lookupD d k := by
  induction d with
  | nil => by_cases h : key = k <;> simp [insertD, h]
  | cons hd tl ih =>
      obtain ⟨k₀, v₀⟩ := hd
      by_cases h₀ : k₀ = key
      · subst h₀
        by_cases h : k₀ = k <;> simp [insertD, h]
      · by_cases h : k₀ = k
        · subst h
          have hne : ¬ key = k₀ := fun hc => h₀ hc.symm
          simp [insertD, h₀, hne]
        · simp [insertD, h₀, h, ih]

theorem lookupD_mem {α : Type} (d : List (String × α)) (k : String) (v : α)
    (h : lookupD d k = some v) : (k, v) ∈ d := by
  induction d with
  | nil => simp at h
  | cons hd tl ih =>
      obtain ⟨k₀, v₀⟩ := hd
      by_cases h₀ : k₀ = k
      · subst h₀
        simp at h
        simp [h]
      · simp [h₀] at h
        exact List.mem_cons_of_mem _ (ih h)

@[simp] theorem keyCount_nil {α : Type} (k : String) :
    keyCount ([] : List (String × α)) k = 0 := rfl

theorem keyCount_cons {α : Type} (k₀ : String) (v₀ : α) (tl : List (String × α))
    (k : String) :
    keyCount ((k₀, v₀) :: tl) k = (if k₀ = k then 1 else 0) + keyCount tl k := by
  by_cases h : k₀ = k <;> simp [keyCount, List.filter_cons, h, Nat.add_comm]

theorem keyCount_insertD_ne {α : Type} (d : List (String × α)) (key : String) (v : α)
    (k : String) (hne : ¬ key = k) :
    keyCount (insertD d key v) k = keyCount d k := by
  induction d with
  | nil => simp [insertD, keyCount, List.filter, hne]
  | cons hd tl ih =>
      obtain ⟨k₀, v₀⟩ := hd
      by_cases h₀ : k₀ = key
      · simp only [insertD, if_pos h₀]
        rw [keyCount_cons, keyCount_cons]
      · simp only [insertD, if_neg h₀]
        rw [keyCount_cons, keyCount_cons, ih]

theorem keyCount_insertD_self_le {α : Type} (d : List (String × α)) (key : String)
    (v : α) (h : keyCount d key ≤ 1) : keyCount (insertD d key v) key ≤ 1 := by
  induction d with
  | nil => simp [insertD, keyCount, List.filter]
  | cons hd tl ih =>
      obtain ⟨k₀, v₀⟩ := hd
      by_cases h₀ : k₀ = key
      · simp only [insertD, if_pos h₀]
        rw [keyCount_cons] at h ⊢
        exact h
      · simp only [insertD, if_neg h₀]
        rw [keyCount_cons] at h ⊢
        simp only [if_neg h₀, Nat.zero_add] at h ⊢
        exact ih h

theorem keyCount_insertD_le {α : Type} (d : List (String × α)) (key : String) (v : α)
    (k : String) (h : keyCount d k ≤ 1) : keyCount (insertD d key v) k ≤ 1 := by
  by_cases hkey : key = k
  · subst hkey
    exact keyCount_insertD_self_le d key v h
  · rw [keyCount_insertD_ne d key v k hkey]
    exact h

/-! ### Counting-dict lemmas (for the consensus-majority analysis) -/

theorem lookupD_map_self {α : Type} (l : List String) (g : String → α) (key : String) :
    lookupD (l.map fun k => (k, g k)) key = if key ∈ l then some (g key) else none := by
  induction l with
  | nil => simp
  | cons a l ih =>
      by_cases h : a = key
      · subst h
        simp
      · have h' : ¬ key = a := fun hc => h hc.symm
        simp [h, h', ih]

theorem insertD_map {α : Type} (l : List String) (g : String → α) (key : String) (v : α)
    (hnd : l.Nodup) :
    insertD (l.map fun k => (k, g k)) key v
      = (if key ∈ l then l else l ++ [key]).map
          (fun k => (k, if k = key then v else g k)) := by
  induction l with
  | nil => simp [insertD]
  | cons a l ih =>
      obtain ⟨ha, hl⟩ := List.nodup_cons.mp hnd
      by_cases h : a = key
      · subst h
        have hmap : ∀ k ∈ l, (k, if k = a then v else g k) = (k, g k) := by
          intro k hk
          have hne : ¬ k = a := fun hc => ha (hc ▸ hk)
          simp [hne]
        simp [insertD, List.map_congr_left hmap]
      · have h' : ¬ key = a := fun hc => h hc.symm
        by_cases hmem : key ∈ l
        · simp [insertD, h, h', hmem, ih hl]
        · simp [insertD, h, h', hmem, ih hl]

theorem bumpCount_map (l : List String) (g : String → Nat) (k₀ : String)
    (hnd : l.Nodup) (hg : ∀ k, k ∉ l → g k = 0) :
    bumpCount (l.map fun k => (k, g k)) k₀
      = (if k₀ ∈ l then l else l ++ [k₀]).map
          (fun k => (k, if k = k₀ then g k₀ + 1 else g k)) := by
  unfold bumpCount
  rw [lookupD_map_self]
  by_cases h : k₀ ∈ l
  · rw [if_pos h, insertD_map l g k₀ _ hnd]
    simp
  · rw [if_neg h, insertD_map l g k₀ _ hnd]
    have h0 : g k₀ = 0 := hg k₀ h
    simp [h0]

theorem foldl_bumpCount (ks : List String) : ∀ (l : List String) (g : String → Nat),
    l.Nodup → (∀ k, k ∉ l → g k = 0) →
    List.foldl bumpCount (l.map fun k => (k, g k)) ks
      = (firstSeenFrom l ks).map (fun k => (k, g k + ks.count k)) := by
  induction ks with
  | nil =>
      intro l g _ _
      simp [firstSeenFrom]
  | cons k₀ rest ih =>
      intro l g hnd hg
      rw [List.foldl_cons, bumpCount_map l g k₀ hnd hg]
      have hnd' : (if k₀ ∈ l then l else l ++ [k₀]).Nodup := by
        by_cases h : k₀ ∈ l <;> simp [h, hnd, List.nodup_append]
      have hg' : ∀ k, k ∉ (if k₀ ∈ l then l else l ++ [k₀]) →
          (if k = k₀ then g k₀ + 1 else g k) = 0 := by
        intro k hk
        by_cases h : k₀ ∈ l
        · rw [if_pos h] at hk
          have hne : ¬ k = k₀ := fun hc => hk (hc ▸ h)
          simp [hne, hg k hk]
        · rw [if_neg h] at hk
          simp [List.mem_append] at hk
          obtain ⟨h1, h2⟩ := hk
          simp [h2, hg k h1]
      rw [ih _ _ hnd' hg']
      have hfs : firstSeenFrom l (k₀ :: rest)
          = firstSeenFrom (if k₀ ∈ l then l else l ++ [k₀]) rest := by
        simp [firstSeenFrom]
      rw [hfs]
      have hval : ∀ k, (if k = k₀ then g k₀ + 1 else g k) + rest.count k
          = g k + (k₀ :: rest).count k := by
        intro k
        by_cases h : k = k₀
        · subst h
          simp [List.count_cons]
          omega
        · simp [h, List.count_cons]
      exact List.map_congr_left (fun k _ => by rw [hval k])

theorem countsOf_eq (ks : List String) :
    countsOf ks = (firstSeen ks).map (fun k => (k, ks.count k)) := by
  have h := foldl_bumpCount ks [] (fun _ => 0) List.nodup_nil (fun _ _ => rfl)
  simpa [countsOf, firstSeen] using h

theorem mem_firstSeenFrom (ks : List String) : ∀ (l : List String) (a : String),
    a ∈ firstSeenFrom l ks ↔ a ∈ l ∨ a ∈ ks := by
  induction ks with
  | nil =>
      intro l a
      simp [firstSeenFrom]
  | cons k rest ih =>
      intro l a
      have hfs : firstSeenFrom l (k :: rest)
          = firstSeenFrom (if k ∈ l then l else l ++ [k]) rest := by
        simp [firstSeenFrom]
      rw [hfs, ih]
      by_cases h : k ∈ l
      · simp only [if_pos h, List.mem_cons]
        constructor
        · rintro (h1 | h1)
          · exact Or.inl h1
          · exact Or.inr (Or.inr h1)
        · rintro (h1 | h1 | h1)
          · exact Or.inl h1
          · exact Or.inl (h1 ▸ h)
          · exact Or.inr h1
      · simp only [if_neg h, List.mem_append, List.mem_singleton, List.mem_cons]
        tauto

theorem nodup_firstSeenFrom (ks : List String) : ∀ (l : List String),
    l.Nodup → (firstSeenFrom l ks).Nodup := by
  induction ks with
  | nil =>
      intro l h
      simpa [firstSeenFrom] using h
  | cons k rest ih =>
      intro l hl
      have hfs : firstSeenFrom l (k :: rest)
          = firstSeenFrom (if k ∈ l then l else l ++ [k]) rest := by
        simp [firstSeenFrom]
      rw [hfs]
      apply ih
      by_cases h : k ∈ l
      · simpa [h] using hl
      · simp [h, List.nodup_append, hl]

theorem pickMax_le : ∀ (l : List (String × Nat)) (b x : String × Nat),
    x ∈ b :: l → x.2 ≤ (pickMax b l).2 := by
  intro l
  induction l with
  | nil =>
      intro b x hx
      simp at hx
      simp [pickMax, hx]
  | cons y rest ih =>
      intro b x hx
      have hstep : pickMax b (y :: rest) = pickMax (if b.2 < y.2 then y else b) rest := by
        simp [pickMax]
      have hb' : b.2 ≤ (if b.2 < y.2 then y else b).2 := by
        by_cases h : b.2 < y.2 <;> simp [h] <;> try omega
      have hy' : y.2 ≤ (if b.2 < y.2 then y else b).2 := by
        by_cases h : b.2 < y.2 <;> simp [h] <;> try omega
      have htop : (if b.2 < y.2 then y else b).2
          ≤ (pickMax (if b.2 < y.2 then y else b) rest).2 :=
        ih _ _ (List.mem_cons_self _ _)
      rw [hstep]
      rcases List.mem_cons.mp hx with h1 | h1
      · subst h1
        omega
      · rcases List.mem_cons.mp h1 with h2 | h2
        · subst h2
          omega
        · exact ih _ _ (List.mem_cons_of_mem _ h2)

theorem pickMax_find : ∀ (l : List (String × Nat)) (b : String × Nat),
    (b :: l).find? (fun x => decide ((pickMax b l).2 ≤ x.2)) = some (pickMax b l) := by
  intro l
  induction l with
  | nil =>
      intro b
      simp [pickMax, List.find?]
  | cons y rest ih =>
      intro b
      have hstep : pickMax b (y :: rest) = pickMax (if b.2 < y.2 then y else b) rest := by
        simp [pickMax]
      by_cases hb : b.2 < y.2
      · have hylt : y.2 ≤ (pickMax y rest).2 := pickMax_le rest y y (List.mem_cons_self _ _)
        rw [hstep, if_pos hb]
        rw [List.find?_cons_of_neg _ (by simp; omega)]
        exact ih y
      · rw [hstep, if_neg hb]
        have hy : y.2 ≤ b.2 := Nat.not_lt.mp hb
        by_cases hpb : (pickMax b rest).2 ≤ b.2
        · have h1 := ih b
          rw [List.find?_cons_of_pos _ (by simpa using hpb)] at h1
          rw [List.find?_cons_of_pos _ (by simpa using hpb)]
          exact h1
        · have hblt : b.2 < (pickMax b rest).2 := Nat.not_le.mp hpb
          have h1 := ih b
          rw [List.find?_cons_of_neg _ (by simp; omega)] at h1
          rw [List.find?_cons_of_neg _ (by simp; omega),
            List.find?_cons_of_neg _ (by simp; omega)]
          exact h1

theorem find?_map_comp {β γ : Type} (f : β → γ) (p : γ → Bool) :
    ∀ l : List β, (l.map f).find? p = (l.find? fun a => p (f a)).map f := by
  intro l
  induction l with
  | nil => simp
  | cons a l ih =>
      by_cases h : p (f a) <;> simp [List.find?, h, ih]

/-- The single analysis lemma behind C3: on a non-empty accepted list,
the majority kind is the first-seen kind of maximal count, the agreement
ratio is its count over the total, the final verdict is the majority kind
exactly when the threshold is met, and the achieved/failed metric is
bumped accordingly. -/
theorem analyze_majority_general (threshold : ℚ) (cid : String)
    (rs : List VerdictResponseMessage) (t0 t1 : Nat) (m : ConsensusMetrics)
    (hne : validVerdicts rs ≠ []) :
    ∃ mk : String,
      (firstSeen ((validVerdicts rs).map SimpleVerdictMessage.verdict)).find?
          (isMajorityOf ((validVerdicts rs).map SimpleVerdictMessage.verdict)) = some mk
      ∧ (∀ k : String,
          ((validVerdicts rs).map SimpleVerdictMessage.verdict).count k
            ≤ ((validVerdicts rs).map SimpleVerdictMessage.verdict).count mk)
      ∧ SimpleConsensusResult.agreement_ratio
            ((analyzeDistributedConsensus threshold cid rs t0 t1 m).1)
          = ((((validVerdicts rs).map SimpleVerdictMessage.verdict).count mk : ℚ)
              / ((validVerdicts rs).length : ℚ))
      ∧ (analyzeDistributedConsensus threshold cid rs t0 t1 m).1.unanimous_verdict
          = (if threshold ≤ (((validVerdicts rs).map SimpleVerdictMessage.verdict).count mk : ℚ)
                / ((validVerdicts rs).length : ℚ) then some mk else none)
      ∧ (analyzeDistributedConsensus threshold cid rs t0 t1 m).2
          = (if threshold ≤ (((validVerdicts rs).map SimpleVerdictMessage.verdict).count mk : ℚ)
                / ((validVerdicts rs).length : ℚ)
             then { m with consensus_achieved := m.consensus_achieved + 1 }
             else { m with consensus_failed := m.consensus_failed + 1 }) := by
  have hksne : (validVerdicts rs).map SimpleVerdictMessage.verdict ≠ [] := by
    simpa using hne
  have hcounts := countsOf_eq ((validVerdicts rs).map SimpleVerdictMessage.verdict)
  -- the first-seen key list is non-empty
  have hfsne : firstSeen ((validVerdicts rs).map SimpleVerdictMessage.verdict) ≠ [] := by
    obtain ⟨a, as, hks⟩ := List.exists_cons_of_ne_nil hksne
    intro hc
    have hmem : a ∈ firstSeen ((validVerdicts rs).map SimpleVerdictMessage.verdict) :=
      (mem_firstSeenFrom _ [] a).mpr (Or.inr (by rw [hks]; exact List.mem_cons_self _ _))
    rw [hc] at hmem
    exact absurd hmem (List.not_mem_nil a)
  obtain ⟨c, crest, hfs⟩ := List.exists_cons_of_ne_nil hfsne
  set ks := (validVerdicts rs).map SimpleVerdictMessage.verdict with hksdef
  have hcounts' : countsOf ks
      = (c, ks.count c) :: crest.map (fun k => (k, ks.count k)) := by
    rw [hcounts, hfs]
    rfl
  have hmax : maxKeyFirst (countsOf ks)
      = some (pickMax (c, ks.count c) (crest.map (fun k => (k, ks.count k)))) := by
    rw [hcounts']
    rfl
  have hfind := pickMax_find (crest.map (fun k => (k, ks.count k))) (c, ks.count c)
  have hMmem : pickMax (c, ks.count c) (crest.map (fun k => (k, ks.count k)))
      ∈ countsOf ks := by
    rw [hcounts']
    exact List.mem_of_find?_eq_some hfind
  have hMform : ∃ a ∈ firstSeen ks,
      (a, ks.count a) = pickMax (c, ks.count c) (crest.map (fun k => (k, ks.count k))) := by
    rw [hcounts] at hMmem
    exact List.mem_map.mp hMmem
  obtain ⟨mk, hmkfs, hmkeq⟩ := hMform
  have hmk1 : (pickMax (c, ks.count c) (crest.map (fun k => (k, ks.count k)))).1 = mk := by
    rw [← hmkeq]
  have hmk2 : (pickMax (c, ks.count c) (crest.map (fun k => (k, ks.count k)))).2
      = ks.count mk := by
    rw [← hmkeq]
  have hmk_mem : mk ∈ ks := by
    rcases (mem_firstSeenFrom ks [] mk).mp hmkfs with h | h
    · exact absurd h (List.not_mem_nil mk)
    · exact h
  have hmaximal : ∀ k, ks.count k ≤ ks.count mk := by
    intro k
    by_cases hk : k ∈ ks
    · have hkfs : k ∈ firstSeen ks := (mem_firstSeenFrom ks [] k).mpr (Or.inr hk)
      have hpair : (k, ks.count k) ∈ countsOf ks := by
        rw [hcounts]
        exact List.mem_map_of_mem _ hkfs
      rw [hcounts'] at hpair
      have hle := pickMax_le (crest.map (fun k => (k, ks.count k))) (c, ks.count c)
        (k, ks.count k) hpair
      rw [hmk2] at hle
      exact hle
    · rw [List.count_eq_zero_of_not_mem hk]
      exact Nat.zero_le _
  have hfind2 : (firstSeen ks).find? (isMajorityOf ks) = some mk := by
    have hmapfind : ((firstSeen ks).map (fun k => (k, ks.count k))).find?
        (fun x => decide ((pickMax (c, ks.count c)
            (crest.map (fun k => (k, ks.count k)))).2 ≤ x.2))
        = some (pickMax (c, ks.count c) (crest.map (fun k => (k, ks.count k)))) := by
      rw [hfs]
      exact hfind
    rw [find?_map_comp] at hmapfind
    dsimp only at hmapfind
    rw [hmk2] at hmapfind
    have hpred : (fun k => decide (ks.count mk ≤ ks.count k)) = isMajorityOf ks := by
      funext k
      rw [Bool.eq_iff_iff]
      simp only [decide_eq_true_eq, isMajorityOf, List.all_eq_true, decide_eq_true_eq]
      constructor
      · intro h j hj
        exact le_trans (hmaximal j) h
      · intro h
        exact h mk hmk_mem
    rw [hpred] at hmapfind
    rcases hf : (firstSeen ks).find? (isMajorityOf ks) with _ | a
    · rw [hf] at hmapfind
      simp at hmapfind
    · rw [hf] at hmapfind
      simp only [Option.map_some'] at hmapfind
      have ha : a = mk := by
        have h2 := congrArg Prod.fst (Option.some.inj hmapfind)
        simpa [hmk1] using h2
      rw [ha]
  have hlook : lookupD (countsOf ks) mk = some (ks.count mk) := by
    rw [hcounts, lookupD_map_self]
    simp [hmkfs]
  refine ⟨mk, hfind2, hmaximal, ?_, ?_, ?_⟩
  · simp only [analyzeDistributedConsensus, if_neg hne, ← hksdef, hmax, Option.getD_some,
      hmk1, hlook]
  · simp only [analyzeDistributedConsensus, if_neg hne, ← hksdef, hmax, Option.getD_some,
      hmk1, hlook]
  · simp only [analyzeDistributedConsensus, if_neg hne, ← hksdef, hmax, Option.getD_some,
      hmk1, hlook]

/-! ### Deduplicator and handler effect lemmas -/

theorem is_duplicate_mem (d : MessageDeduplicator) (nonce : String)
    (h : nonce ∈ d.seen_nonces) : d.is_duplicate nonce = (true, d) := by
  simp [MessageDeduplicator.is_duplicate, h]

theorem is_duplicate_not_mem (d : MessageDeduplicator) (nonce : String)
    (h : nonce ∉ d.seen_nonces) :
    (d.is_duplicate nonce).1 = false
    ∧ nonce ∈ (d.is_duplicate nonce).2.seen_nonces := by
  constructor
  · simp [MessageDeduplicator.is_duplicate, h]
  · simp only [MessageDeduplicator.is_duplicate, if_neg h]
    by_cases hcap : d.max_cache_size < (d.seen_nonces ++ [nonce]).length
    · simp only [if_pos hcap]
      have hlen : d.max_cache_size ≤ d.seen_nonces.length := by
        simp at hcap
        omega
      have hev : d.evictCount ≤ d.seen_nonces.length := by
        have h2 : d.max_cache_size * 2 ≤ d.max_cache_size * 10 := by omega
        have h3 : d.max_cache_size * 2 / 10 ≤ d.max_cache_size * 10 / 10 :=
          Nat.div_le_div_right h2
        have h4 : d.max_cache_size * 10 / 10 = d.max_cache_size := by omega
        calc d.evictCount ≤ d.max_cache_size := by
                unfold MessageDeduplicator.evictCount
                omega
          _ ≤ d.seen_nonces.length := hlen
      rw [List.drop_append_of_le_length hev]
      exact List.mem_append_right _ (List.mem_singleton_self nonce)
    · rw [if_neg (by simpa using hcap)]
      exact List.mem_append_right _ (List.mem_singleton_self nonce)

/-- Effects of `handle_verdict_response` on the accept path (fresh nonce,
verified sender): the message is appended to the claim's pending list
and nothing else but the futures map can change. -/
theorem verdict_accept_effects (st : OrchestratorState) (sender : String)
    (msg : VerdictResponseMessage)
    (hdup : (st.dedup.is_duplicate msg.nonce).1 = false)
    (hver : senderVerified st.verified_wallets sender = true) :
    (handle_verdict_response st sender msg).pending_verdicts
      = insertD st.pending_verdicts msg.claim_id
          ((lookupD st.pending_verdicts msg.claim_id).getD [] ++ [msg])
    ∧ (handle_verdict_response st sender msg).consensus_metrics = st.consensus_metrics
    ∧ (handle_verdict_response st sender msg).active_consensuses = st.active_consensuses
    ∧ (handle_verdict_response st sender msg).verified_wallets = st.verified_wallets
    ∧ (handle_verdict_response st sender msg).registered_agents = st.registered_agents := by
  unfold handle_verdict_response
  simp only [hdup, Bool.false_eq_true, if_false, hver, Bool.true_eq_false, not_true,
    if_neg, ite_false, Bool.not_true]
  repeat' split
  all_goals simp

/-- Effects of `handle_verdict_response` on a duplicate message: the
state is returned unchanged apart from the (unchanged) dedup cache. -/
theorem verdict_duplicate_effects (st : OrchestratorState) (sender : String)
    (msg : VerdictResponseMessage)
    (hdup : msg.nonce ∈ st.dedup.seen_nonces) :
    handle_verdict_response st sender msg = st := by
  unfold handle_verdict_response
  rw [is_duplicate_mem st.dedup msg.nonce hdup]
  simp

/-- Effects of `handle_verdict_response` on an unverified sender: only
the dedup cache and the wallet-verification-failure metric change. -/
theorem verdict_unverified_effects (st : OrchestratorState) (sender : String)
    (msg : VerdictResponseMessage)
    (hdup : (st.dedup.is_duplicate msg.nonce).1 = false)
    (hver : senderVerified st.verified_wallets sender = false) :
    handle_verdict_response st sender msg
      = { st with
            dedup := (st.dedup.is_duplicate msg.nonce).2,
            consensus_metrics :=
              { st.consensus_metrics with wallet_verification_failures :=
                  st.consensus_metrics.wallet_verification_failures + 1 } } := by
  unfold handle_verdict_response
  simp [hdup, hver]

theorem senderVerified_of_lookup (wallets : List (String × String)) (aid sender : String)
    (h : lookupD wallets aid = some sender) : senderVerified wallets sender = true := by
  have hmem : (aid, sender) ∈ wallets := lookupD_mem wallets aid sender h
  simp only [senderVerified, List.any_eq_true]
  exact ⟨(aid, sender), hmem, by simp [h]⟩

/-! ### Claim theorems -/

/-- C5 counterexample: the claim "every subsequent delivery of the same
nonce returns true" fails once the bounded cache evicts the nonce.  With
capacity 10, nonce `n00` is recorded on first delivery (an immediate
redelivery is flagged), but after ten further fresh nonces overflow the
cache and evict the oldest two entries, a redelivery of `n00` is treated
as fresh again. -/
theorem dedup_eviction_forgets_nonce :
    ((dedupRun dedupC5 ["n00"]).is_duplicate "n00").1 = true
    ∧ ((dedupRun dedupC5 noncesC5).is_duplicate "n00").1 = false := by
  constructor
  · decide
  · decide

/-- C5 (amended): the first `is_duplicate` call on a nonce returns false
and records the nonce; a delivery of a nonce still in the bounded cache
returns true with the cache unchanged, and the registration handler then
short-circuits, incrementing only the duplicate-message metric; eviction
(dropping the oldest `int(0.2 * max_cache_size)` entries on overflow) can
later remove the record. -/
theorem dedup_nonce_lifecycle (d : MessageDeduplicator) (nonce : String)
    (st : OrchestratorState) (sender : String) (msg : AgentRegistrationMessage)
    (hfresh : nonce ∉ d.seen_nonces)
    (hdup : msg.nonce ∈ st.dedup.seen_nonces) :
    (d.is_duplicate nonce).1 = false
    ∧ nonce ∈ (d.is_duplicate nonce).2.seen_nonces
    ∧ st.dedup.is_duplicate msg.nonce = (true, st.dedup)
    ∧ handle_agent_registration st sender msg
        = ({ st with consensus_metrics :=
              { st.consensus_metrics with duplicate_messages :=
                  st.consensus_metrics.duplicate_messages + 1 } }, []) := by
  obtain ⟨h1, h2⟩ := is_duplicate_not_mem d nonce hfresh
  refine ⟨h1, h2, is_duplicate_mem st.dedup msg.nonce hdup, ?_⟩
  unfold handle_agent_registration
  rw [is_duplicate_mem st.dedup msg.nonce hdup]
  simp

/-- Witness for C5 (amended) at concrete inputs. -/
theorem dedup_nonce_lifecycle_witness :
    ("n" ∉ dedupC5.seen_nonces
        ∧ regMsg.nonce ∈ stDup.dedup.seen_nonces)
    ∧ ((dedupC5.is_duplicate "n").1 = false
        ∧ "n" ∈ (dedupC5.is_duplicate "n").2.seen_nonces
        ∧ stDup.dedup.is_duplicate regMsg.nonce = (true, stDup.dedup)
        ∧ handle_agent_registration stDup "addr1" regMsg
            = ({ stDup with consensus_metrics :=
                  { stDup.consensus_metrics with duplicate_messages :=
                      stDup.consensus_metrics.duplicate_messages + 1 } }, [])) :=
  ⟨⟨by decide, by decide⟩,
    dedup_nonce_lifecycle dedupC5 "n" stDup "addr1" regMsg (by decide) (by decide)⟩

/-- C9: an empty accepted verdict list yields the defined empty result —
null final verdict, zero agreement ratio, empty verdict and dissent
lists — rather than an error (the embedding is a total function). -/
theorem analyze_empty_defined (threshold : ℚ) (cid : String)
    (rs : List VerdictResponseMessage) (t0 t1 : Nat) (m : ConsensusMetrics)
    (h : validVerdicts rs = []) :
    (analyzeDistributedConsensus threshold cid rs t0 t1 m).1
      = { claim_id := cid, unanimous_verdict := none, agreement_ratio := 0,
          agent_verdicts := [], dissenting_agents := [],
          consensus_coverage_amount := none,
          processing_time_ms := t1 - t0, evaluation_timestamp := t1 } := by
  simp [analyzeDistributedConsensus, h]

/-- Witness for C9 with an empty response list. -/
theorem analyze_empty_defined_witness :
    validVerdicts [] = []
    ∧ (analyzeDistributedConsensus 1 "claim-e" [] 0 5 initialMetrics).1
      = { claim_id := "claim-e", unanimous_verdict := none, agreement_ratio := 0,
          agent_verdicts := [], dissenting_agents := [],
          consensus_coverage_amount := none,
          processing_time_ms := 5, evaluation_timestamp := 5 } :=
  ⟨rfl, analyze_empty_defined 1 "claim-e" [] 0 5 initialMetrics rfl⟩

/-- C4 (code bug): at the failing input — a single accepted `COVERED`
verdict carrying coverage amount `0.0` under threshold `1.0` — consensus
is achieved with a non-null amount present, yet the code reports a null
consensus coverage amount, because `if v.coverage_amount` drops the
falsy value `0.0` along with `None` (the spec and the repository's own
test helper use an `is not None` filter instead). -/
theorem analyze_zero_amount_dropped :
    (validVerdicts rsC4).filterMap SimpleVerdictMessage.coverage_amount = [0]
    ∧ (analyzeDistributedConsensus 1 "claim-1" rsC4 0 1 initialMetrics).1.unanimous_verdict
        = some "COVERED"
    ∧ (analyzeDistributedConsensus 1 "claim-1" rsC4 0 1 initialMetrics).1.consensus_coverage_amount
        = none := by
  have hv : validVerdicts rsC4 = [mkVerdict "agent1" "COVERED" (some 0)] := rfl
  refine ⟨by rw [hv]; rfl, ?_⟩
  simp only [analyzeDistributedConsensus, hv]
  norm_num [countsOf, bumpCount, insertD, lookupD, maxKeyFirst, pickMax, truthyAmounts,
    firstSeen, mkVerdict]

/-- C3: for every non-empty accepted verdict list, the majority kind is
the verdict kind with the highest count, ties broken by first-seen order
among the accepted verdicts; the agreement ratio is majority count over
total accepted; consensus is achieved (and the achieved metric bumped,
with the final verdict equal to the majority kind) exactly when the
ratio reaches the threshold, and the final verdict is null otherwise;
in particular a two-way tie under threshold 0.67 gives ratio 1/2, no
consensus and a null final verdict. -/
theorem analyze_majority_first_seen (threshold : ℚ) (cid : String)
    (rs : List VerdictResponseMessage) (t0 t1 : Nat) (m : ConsensusMetrics)
    (hne : validVerdicts rs ≠ []) :
    (∃ mk : String,
      (firstSeen ((validVerdicts rs).map SimpleVerdictMessage.verdict)).find?
          (isMajorityOf ((validVerdicts rs).map SimpleVerdictMessage.verdict)) = some mk
      ∧ (∀ k : String,
          ((validVerdicts rs).map SimpleVerdictMessage.verdict).count k
            ≤ ((validVerdicts rs).map SimpleVerdictMessage.verdict).count mk)
      ∧ SimpleConsensusResult.agreement_ratio
            ((analyzeDistributedConsensus threshold cid rs t0 t1 m).1)
          = ((((validVerdicts rs).map SimpleVerdictMessage.verdict).count mk : ℚ)
              / ((validVerdicts rs).length : ℚ))
      ∧ (analyzeDistributedConsensus threshold cid rs t0 t1 m).1.unanimous_verdict
          = (if threshold
                ≤ (((validVerdicts rs).map SimpleVerdictMessage.verdict).count mk : ℚ)
                  / ((validVerdicts rs).length : ℚ) then some mk else none)
      ∧ (analyzeDistributedConsensus threshold cid rs t0 t1 m).2
          = (if threshold
                ≤ (((validVerdicts rs).map SimpleVerdictMessage.verdict).count mk : ℚ)
                  / ((validVerdicts rs).length : ℚ)
             then { m with consensus_achieved := m.consensus_achieved + 1 }
             else { m with consensus_failed := m.consensus_failed + 1 }))
    ∧ SimpleConsensusResult.agreement_ratio
          ((analyzeDistributedConsensus (67/100) "claim-t" rsTie 0 1 initialMetrics).1) = 1/2
    ∧ (analyzeDistributedConsensus (67/100) "claim-t" rsTie 0 1 initialMetrics).1.unanimous_verdict
        = none := by
  refine ⟨analyze_majority_general threshold cid rs t0 t1 m hne, by rfl, ?_⟩
  obtain ⟨mk, hfind, hmaximal, hratio, hunam, hmet⟩ :=
    analyze_majority_general (67/100) "claim-t" rsTie 0 1 initialMetrics (by decide)
  have hmk : mk = "COVERED" := by
    have hconc : (firstSeen ((validVerdicts rsTie).map SimpleVerdictMessage.verdict)).find?
        (isMajorityOf ((validVerdicts rsTie).map SimpleVerdictMessage.verdict))
        = some "COVERED" := by decide
    rw [hconc] at hfind
    exact (Option.some.inj hfind).symm
  rw [hunam, hmk]
  have hcount : ((validVerdicts rsTie).map SimpleVerdictMessage.verdict).count "COVERED" = 1 := by
    decide
  have hlen : (validVerdicts rsTie).length = 2 := by decide
  rw [hcount, hlen]
  have hlt : ¬ ((67 : ℚ)/100 ≤ ((1 : Nat) : ℚ) / ((2 : Nat) : ℚ)) := by norm_num
  rw [if_neg hlt]

/-- Witness for C3 at the two-verdict tie input. -/
theorem analyze_majority_first_seen_witness :
    validVerdicts rsTie ≠ []
    ∧ (analyzeDistributedConsensus (67/100) "claim-t" rsTie 0 1 initialMetrics).1.unanimous_verdict
        = none :=
  ⟨by decide,
    (analyze_majority_first_seen (67/100) "claim-t" rsTie 0 1 initialMetrics (by decide)).2.2⟩

/-- C7: a registration message (with a fresh nonce) is accepted — the
identity stored in the registry and the wallet recorded as verified —
iff the transport-level sender equals the message's `agent_address`; on
mismatch the wallet-verification-failure metric is incremented and the
registry and wallet map are unchanged; the handler sends no response of
any kind on either path. -/
theorem registration_accept_iff_sender_matches (st : OrchestratorState)
    (sender : String) (msg : AgentRegistrationMessage)
    (hfresh : msg.nonce ∉ st.dedup.seen_nonces) :
    (handle_agent_registration st sender msg).2 = []
    ∧ (sender = msg.agent_address →
        lookupD (handle_agent_registration st sender msg).1.registered_agents msg.agent_id
            = some msg
        ∧ lookupD (handle_agent_registration st sender msg).1.verified_wallets msg.agent_id
            = some sender
        ∧ (handle_agent_registration st sender msg).1.consensus_metrics
            = st.consensus_metrics)
    ∧ (sender ≠ msg.agent_address →
        (handle_agent_registration st sender msg).1.registered_agents = st.registered_agents
        ∧ (handle_agent_registration st sender msg).1.verified_wallets = st.verified_wallets
        ∧ (handle_agent_registration st sender msg).1.consensus_metrics
            = { st.consensus_metrics with wallet_verification_failures :=
                  st.consensus_metrics.wallet_verification_failures + 1 }) := by
  have h1 : (st.dedup.is_duplicate msg.nonce).1 = false :=
    (is_duplicate_not_mem st.dedup msg.nonce hfresh).1
  by_cases hs : sender = msg.agent_address
  · refine ⟨?_, fun _ => ⟨?_, ?_, ?_⟩, fun hc => absurd hs hc⟩ <;>
      simp [handle_agent_registration, h1, hs, lookupD_insertD]
  · refine ⟨?_, fun hc => absurd hc hs, fun _ => ⟨?_, ?_, ?_⟩⟩ <;>
      simp [handle_agent_registration, h1, hs]

/-- Witness for C7: a matching registration is stored. -/
theorem registration_accept_iff_sender_matches_witness :
    regMsg.nonce ∉ emptyOrchestratorState.dedup.seen_nonces
    ∧ lookupD (handle_agent_registration emptyOrchestratorState "addr1" regMsg).1.registered_agents
        regMsg.agent_id = some regMsg :=
  ⟨by decide,
    ((registration_accept_iff_sender_matches emptyOrchestratorState "addr1" regMsg
        (by decide)).2.1 rfl).1⟩

/-- C10: sender verification for verdict responses only requires that the
transport sender equal the verified wallet address of some registered
agent; the response is then appended to the claim's pending list, with
no constraint relating the verdict's embedded `agent_id` to the agent
registered for that sender address. -/
theorem verdict_accepted_by_wallet_membership (st : OrchestratorState)
    (sender : String) (msg : VerdictResponseMessage) (aid : String)
    (hfresh : msg.nonce ∉ st.dedup.seen_nonces)
    (hwallet : lookupD st.verified_wallets aid = some sender) :
    lookupD (handle_verdict_response st sender msg).pending_verdicts msg.claim_id
      = some ((lookupD st.pending_verdicts msg.claim_id).getD [] ++ [msg]) := by
  have h1 := (is_duplicate_not_mem st.dedup msg.nonce hfresh).1
  have hver := senderVerified_of_lookup st.verified_wallets aid sender hwallet
  rw [(verdict_accept_effects st sender msg h1 hver).1, lookupD_insertD]
  simp

/-- Witness for C10: the sending wallet `addr1` is registered for
`agent1`, while the verdict's embedded agent id is `agent2`; the verdict
is appended regardless. -/
theorem verdict_accepted_by_wallet_membership_witness :
    (msgC10.nonce ∉ stWallet.dedup.seen_nonces
      ∧ lookupD stWallet.verified_wallets "agent1" = some "addr1"
      ∧ Option.map SimpleVerdictMessage.agent_id msgC10.verdict = some "agent2")
    ∧ lookupD (handle_verdict_response stWallet "addr1" msgC10).pending_verdicts msgC10.claim_id
        = some ((lookupD stWallet.pending_verdicts msgC10.claim_id).getD [] ++ [msgC10]) :=
  ⟨⟨by decide, by decide, by decide⟩,
    verdict_accepted_by_wallet_membership stWallet "addr1" msgC10 "agent1"
      (by decide) (by decide)⟩

/-- C2 counterexample: the collection path verifies neither signatures
nor replay bindings: an exact replay of an already-accepted verdict —
same claim, same request correlation id (the replay binding), identical
verdict content — retransmitted under a fresh nonce from a verified
wallet is appended a second time instead of being rejected. -/
theorem verdict_replay_pair_accepted_twice :
    msgC2b.request_message_id = msgC2a.request_message_id
    ∧ msgC2b.verdict = msgC2a.verdict
    ∧ lookupD (handle_verdict_response
          (handle_verdict_response stWallet "addr1" msgC2a) "addr1" msgC2b).pending_verdicts
        "claim-1" = some [msgC2a, msgC2b] := by
  refine ⟨rfl, rfl, by decide⟩

/-- C2 (amended): during collection a verdict response is appended to
the claim's pending list iff it passes the nonce-dedup gate and its
transport sender equals some registered agent's verified wallet address;
a duplicate leaves the state unchanged, and an unverified sender only
bumps the wallet-verification-failure metric.  No signature verification
and no (bindingId, signature) replay tracking exist on this path. -/
theorem verdict_appended_iff_fresh_and_verified (st : OrchestratorState)
    (sender : String) (msg : VerdictResponseMessage) :
    ((st.dedup.is_duplicate msg.nonce).1 = false →
      senderVerified st.verified_wallets sender = true →
      lookupD (handle_verdict_response st sender msg).pending_verdicts msg.claim_id
        = some ((lookupD st.pending_verdicts msg.claim_id).getD [] ++ [msg]))
    ∧ (msg.nonce ∈ st.dedup.seen_nonces →
      handle_verdict_response st sender msg = st)
    ∧ ((st.dedup.is_duplicate msg.nonce).1 = false →
      senderVerified st.verified_wallets sender = false →
      (handle_verdict_response st sender msg).pending_verdicts = st.pending_verdicts
      ∧ (handle_verdict_response st sender msg).consensus_metrics
          = { st.consensus_metrics with wallet_verification_failures :=
                st.consensus_metrics.wallet_verification_failures + 1 }) := by
  refine ⟨fun h1 h2 => ?_,
    fun hdup => verdict_duplicate_effects st sender msg hdup,
    fun h1 h2 => ?_⟩
  · rw [(verdict_accept_effects st sender msg h1 h2).1, lookupD_insertD]
    simp
  · rw [verdict_unverified_effects st sender msg h1 h2]
    exact ⟨rfl, rfl⟩

/-- Witness for C2 (amended): a fresh verdict from a verified wallet is
appended. -/
theorem verdict_appended_iff_fresh_and_verified_witness :
    ((stWallet.dedup.is_duplicate msgC2a.nonce).1 = false
      ∧ senderVerified stWallet.verified_wallets "addr1" = true)
    ∧ lookupD (handle_verdict_response stWallet "addr1" msgC2a).pending_verdicts
        msgC2a.claim_id
        = some ((lookupD stWallet.pending_verdicts msgC2a.claim_id).getD [] ++ [msgC2a]) :=
  ⟨⟨by decide, by decide⟩,
    (verdict_appended_iff_fresh_and_verified stWallet "addr1" msgC2a).1
      (by decide) (by decide)⟩

/-- When the claim has no pending future, accepting a verdict leaves the
futures map unchanged. -/
theorem verdict_accept_futures_unchanged (st : OrchestratorState) (sender : String)
    (msg : VerdictResponseMessage)
    (hdup : (st.dedup.is_duplicate msg.nonce).1 = false)
    (hver : senderVerified st.verified_wallets sender = true)
    (hfut : lookupD st.consensus_futures msg.claim_id = none) :
    (handle_verdict_response st sender msg).consensus_futures = st.consensus_futures := by
  unfold handle_verdict_response
  simp only [hdup, Bool.false_eq_true, if_false, hver, Bool.not_true, ite_false]
  repeat' split
  all_goals simp_all

/-- C6 counterexample: after the session for `claim-9` has closed and its
state was discarded, a late verdict response is not simply dropped: the
handler recreates a pending-verdict list for that claim_id and stores
the verdict, mutating orchestrator state associated with the claim. -/
theorem late_verdict_mutates_closed_state :
    lookupD stWallet.pending_verdicts "claim-9" = none
    ∧ lookupD stWallet.active_consensuses "claim-9" = none
    ∧ lookupD stWallet.consensus_futures "claim-9" = none
    ∧ lookupD (handle_verdict_response stWallet "addr1" msgC6).pending_verdicts "claim-9"
        = some [msgC6] := by
  refine ⟨rfl, rfl, rfl, by decide⟩

/-- C6 (amended): a verdict response arriving after the claim's session
has closed (no session entry and no future remain) is never applied to a
session or future and leaves the metrics untouched, but it still mutates
orchestrator state for that claim_id: the verdict is stored in a freshly
created pending-verdict list. -/
theorem late_verdict_not_applied_but_stored (st : OrchestratorState)
    (sender : String) (msg : VerdictResponseMessage)
    (hfresh : msg.nonce ∉ st.dedup.seen_nonces)
    (hver : senderVerified st.verified_wallets sender = true)
    (hfut : lookupD st.consensus_futures msg.claim_id = none) :
    (handle_verdict_response st sender msg).active_consensuses = st.active_consensuses
    ∧ (handle_verdict_response st sender msg).consensus_futures = st.consensus_futures
    ∧ (handle_verdict_response st sender msg).consensus_metrics = st.consensus_metrics
    ∧ lookupD (handle_verdict_response st sender msg).pending_verdicts msg.claim_id
        = some ((lookupD st.pending_verdicts msg.claim_id).getD [] ++ [msg]) := by
  have h1 := (is_duplicate_not_mem st.dedup msg.nonce hfresh).1
  obtain ⟨hpend, hmet, hact, _, _⟩ := verdict_accept_effects st sender msg h1 hver
  refine ⟨hact, verdict_accept_futures_unchanged st sender msg h1 hver hfut, hmet, ?_⟩
  rw [hpend, lookupD_insertD]
  simp

/-- Witness for C6 (amended) with a late verdict for closed `claim-9`. -/
theorem late_verdict_not_applied_but_stored_witness :
    (msgC6.nonce ∉ stWallet.dedup.seen_nonces
      ∧ senderVerified stWallet.verified_wallets "addr1" = true
      ∧ lookupD stWallet.consensus_futures msgC6.claim_id = none)
    ∧ lookupD (handle_verdict_response stWallet "addr1" msgC6).pending_verdicts msgC6.claim_id
        = some ((lookupD stWallet.pending_verdicts msgC6.claim_id).getD [] ++ [msgC6]) :=
  ⟨⟨by decide, by decide, by decide⟩,
    (late_verdict_not_applied_but_stored stWallet "addr1" msgC6
      (by decide) (by decide) (by decide)).2.2.2⟩

/-- C1 counterexample: a consensus request for `claim-1`, whose session
is still open and has collected one verdict, is not rejected — there is
no SessionAlreadyActive check anywhere — and handling it resets the
claim's pending-verdict list, destroying the open session's collected
verdict, so the existing session is affected. -/
theorem second_request_not_rejected :
    lookupD stC1.active_consensuses "claim-1" = some sessC1
    ∧ lookupD stC1.pending_verdicts "claim-1" = some [msgC2a]
    ∧ (handle_consensus_request stC1 reqC1 (fun _ => true) 50).2 = true
    ∧ lookupD (handle_consensus_request stC1 reqC1 (fun _ => true) 50).1.pending_verdicts
        "claim-1" = some [] := by
  refine ⟨rfl, rfl, by decide, by decide⟩

/-- C1 (amended): a consensus request for a claim_id that already has an
open session is not rejected; the handler proceeds, overwriting the
session entry (new request, new start time, expected count recomputed
from the current registry and transport successes), resetting the
claim's pending-verdict list to empty and installing a fresh unresolved
future; the session map still holds at most one entry per claim_id. -/
theorem consensus_request_overwrites_session (st : OrchestratorState)
    (msg : ConsensusRequestMessage) (sendOk : String → Bool) (now : Nat)
    (hfresh : msg.nonce ∉ st.dedup.seen_nonces) :
    (handle_consensus_request st msg sendOk now).2 = true
    ∧ lookupD (handle_consensus_request st msg sendOk now).1.active_consensuses msg.claim_id
        = some { request := msg, start_time := now,
                 expected_agents :=
                   ((st.registered_agents.filter
                       (fun p => sendOk p.2.agent_address)).map (fun p => p.1)).length,
                 timeout := now + msg.agent_timeout }
    ∧ lookupD (handle_consensus_request st msg sendOk now).1.pending_verdicts msg.claim_id
        = some []
    ∧ lookupD (handle_consensus_request st msg sendOk now).1.consensus_futures msg.claim_id
        = some none
    ∧ (keyCount st.active_consensuses msg.claim_id ≤ 1 →
        keyCount (handle_consensus_request st msg sendOk now).1.active_consensuses
          msg.claim_id ≤ 1) := by
  have h1 := (is_duplicate_not_mem st.dedup msg.nonce hfresh).1
  simp only [handle_consensus_request, h1, Bool.false_eq_true, if_false]
  unfold startConsensusSession
  refine ⟨by trivial, ?_, ?_, ?_, fun hle => ?_⟩
  · simp [lookupD_insertD]
  · simp [lookupD_insertD]
  · simp [lookupD_insertD]
  · exact keyCount_insertD_le _ _ _ _ (keyCount_insertD_le _ _ _ _ hle)

/-- Witness for C1 (amended) at the open-session state. -/
theorem consensus_request_overwrites_session_witness :
    reqC1.nonce ∉ stC1.dedup.seen_nonces
    ∧ lookupD (handle_consensus_request stC1 reqC1 (fun _ => true) 50).1.pending_verdicts
        reqC1.claim_id = some [] :=
  ⟨by decide,
    (consensus_request_overwrites_session stC1 reqC1 (fun _ => true) 50 (by decide)).2.2.1⟩

/-- C8: verdict signing is deterministic — signing the same (verdict,
binding id) pair twice yields identical signatures — and
binding-sensitive: whenever the external serialise-hash-sign pipeline is
injective (no hash or signature collisions), two distinct binding ids
yield different signature values over the same verdict, because the
canonical payloads differ in their `message_id` entry. -/
theorem sign_deterministic_and_binding_sensitive {σ : Type}
    (signRaw : List (String × JsonVal) → σ) (wallet : String)
    (hinj : Function.Injective signRaw) (v : AgentVerdict) (b1 b2 : String)
    (hne : b1 ≠ b2) :
    sign_verdict_asi_native signRaw wallet v (some b1)
        = sign_verdict_asi_native signRaw wallet v (some b1)
    ∧ (sign_verdict_asi_native signRaw wallet v (some b1)).value
        ≠ (sign_verdict_asi_native signRaw wallet v (some b2)).value := by
  refine ⟨rfl, fun hc => ?_⟩
  have hp : signingPayload v (some b1) = signingPayload v (some b2) := hinj hc
  by_cases h1 : b1 = "" <;> by_cases h2 : b2 = ""
  · exact hne (h1.trans h2.symm)
  · have hlen := congrArg List.length hp
    simp [signingPayload, truthyStr, h1, h2] at hlen
  · have hlen := congrArg List.length hp
    simp [signingPayload, truthyStr, h1, h2] at hlen
  · simp [signingPayload, truthyStr, h1, h2] at hp
    exact hne hp

/-- Witness for C8 with the identity pipeline on payloads. -/
theorem sign_deterministic_and_binding_sensitive_witness :
    (("a" : String) ≠ "b")
    ∧ (sign_verdict_asi_native (fun p => p) "w" vC8 (some "a")).value
        ≠ (sign_verdict_asi_native (fun p => p) "w" vC8 (some "b")).value :=
  ⟨by decide,
    (sign_deterministic_and_binding_sensitive (fun p => p) "w" (fun _ _ h => h) vC8 "a" "b"
      (by decide)).2⟩

end BioVault
